import Mathlib

/-!
Verification development for the `lode` research worker.

The definitions below are a shallow embedding of the repository's Python
sources:

* `openai_client.py` — retry classification (`_should_retry`), token-usage
  aggregation (`_extract_token_usage`) and the bounded retry loop
  (`AgentRunner.run`);
* `manager.py` — the research manager: sequence numbers, the interrupt
  controller and poll loop of `_run_orchestrator`, budget updating
  (`_update_budget_usage`) and report extraction (`_extract_report`);
* `runner.py` — the JSON event protocol (`emit_*`), the phase driver
  (`run_clarify`, `run_research`, `async_main`).

External capability invocations (OpenAI agent calls), stdin contents and
real-time scheduling are modelled by an explicit environment (`Env`): the
outcome of each invocation, the arrival tick of an interrupt signal and
the completion tick of the orchestration task are environment parameters,
and the embedding is a deterministic function of them.  Times are in
milliseconds; the poll loop wakes every `pollPeriod = 100` ms or as soon
as the orchestration task finishes (`asyncio.wait` with
`return_when=FIRST_COMPLETED`), whichever is earlier.
-/

namespace Lode

/-! ## String helpers (Python `in` and `startswith` on strings) -/

/-- Character-list equality test used to model Python string operations. -/
def listPrefixEq : List Char → List Char → Bool
  | [], _ => true
  | _ :: _, [] => false
  | a :: as, b :: bs => a == b && listPrefixEq as bs

/-- Substring search over character lists (Python `needle in hay`). -/
def listContainsSub (needle : List Char) : List Char → Bool
  | [] => needle.isEmpty
  | c :: rest => listPrefixEq needle (c :: rest) || listContainsSub needle rest

/-- Python `needle in hay` for strings. -/
def strContains (hay needle : String) : Bool :=
  listContainsSub needle.toList hay.toList

/-- Python `s.startswith(p)`. -/
def strStartsWith (s p : String) : Bool :=
  listPrefixEq p.toList s.toList

/-- ASCII lowering of one character (the retry patterns are ASCII). -/
def charLower (c : Char) : Char :=
  if 'A' ≤ c ∧ c ≤ 'Z' then Char.ofNat (c.toNat + 32) else c

/-- Python `s.lower()` restricted to ASCII case folding. -/
def strToLower (s : String) : String := String.mk (s.toList.map charLower)

/-! ## `openai_client.py` -/

/-- Token usage record (`TokenUsage` dataclass in `openai_client.py`);
`to_dict` is a field-preserving map so the record itself stands for the
emitted dictionary. -/
structure TokenUsage where
  prompt_tokens : Int
  completion_tokens : Int
  total_tokens : Int
deriving DecidableEq

/-- Usage object attached to one raw network response: each field models
`getattr(response.usage, field, 0) or 0`, with `none` for an absent
field. -/
structure Usage where
  prompt_tokens : Option Int
  completion_tokens : Option Int
deriving DecidableEq

/-- One raw response inside a `RunResult`: `none` models a response whose
`usage` attribute is absent or falsy (`if hasattr(response, "usage") and
response.usage`). -/
abbrev RawResponse := Option Usage

/-- Embedding of `_should_retry` from `openai_client.py`: classify an
error message (already the `str()` of the exception) as retryable. -/
def shouldRetry (message : String) : Bool :=
  let s := strToLower message
  if strContains s "rate" && strContains s "limit" then true
  else if strContains s "429" then true
  else if strContains s "500" || strContains s "502" || strContains s "503" || strContains s "504" then true
  else if strContains s "server" && strContains s "error" then true
  else if strContains s "connection" || strContains s "timeout" then true
  else false

/-- Loop body of `_extract_token_usage`: accumulate the two totals over
one raw response (`getattr(..., 0) or 0` contributes 0 for an absent or
falsy field). -/
def usageStep (acc : Int × Int) (r : RawResponse) : Int × Int :=
  match r with
  | some u => (acc.1 + u.prompt_tokens.getD 0, acc.2 + u.completion_tokens.getD 0)
  | none => acc

/-- Embedding of `_extract_token_usage` from `openai_client.py`: sum
`prompt_tokens`/`completion_tokens` over every raw response; return
`none` when the list is empty or both totals are not positive. -/
def extractTokenUsage (raw_responses : List RawResponse) : Option TokenUsage :=
  if raw_responses.isEmpty then none
  else
    let totals := raw_responses.foldl usageStep (0, 0)
    if totals.1 > 0 ∨ totals.2 > 0 then
      some ⟨totals.1, totals.2, totals.1 + totals.2⟩
    else none

/-- Specification-side sum of reported prompt tokens over a response list. -/
def sumPromptTokens : List RawResponse → Int
  | [] => 0
  | some u :: rest => u.prompt_tokens.getD 0 + sumPromptTokens rest
  | none :: rest => sumPromptTokens rest

/-- Specification-side sum of reported completion tokens over a response list. -/
def sumCompletionTokens : List RawResponse → Int
  | [] => 0
  | some u :: rest => u.completion_tokens.getD 0 + sumCompletionTokens rest
  | none :: rest => sumCompletionTokens rest

/-- Embedding of the retry loop body of `AgentRunner.run`.  `attempt` is
the 0-based attempt index, `left` the number of retries still allowed
(`left = retries - attempt`, so `attempt < retries` iff `left > 0`).
`behavior` gives the outcome of `Runner.run` at each attempt index.  The
returned `Nat` is the number of retries (backoff sleeps) performed. -/
def attemptLoop (behavior : Nat → Except String α) (attempt : Nat) :
    Nat → Except String α × Nat
  | 0 =>
    match behavior attempt with
    | .ok r => (.ok r, attempt)
    | .error e => (.error e, attempt)
  | l + 1 =>
    match behavior attempt with
    | .ok r => (.ok r, attempt)
    | .error e =>
      if shouldRetry e then attemptLoop behavior (attempt + 1) l
      else (.error e, attempt)

/-- Default `max_retries` of the module-level `AgentRunner` instance. -/
def defaultMaxRetries : Nat := 3

/-- Embedding of `AgentRunner.run`: run with `max_retries` (instance
default when `none`), starting at attempt 0. -/
def agentRunnerRun (behavior : Nat → Except String α) (max_retries : Option Nat) :
    Except String α × Nat :=
  let retries := max_retries.getD defaultMaxRetries
  attemptLoop behavior 0 retries

/-! ## Python value model for the orchestrator output

`_extract_report` and `_update_budget_usage` in `manager.py` probe the
orchestrator's final output by attribute (`hasattr`/`getattr`), by its
pydantic structured dump (`model_dump`) and by plain-dict lookup.  `PyVal`
models the closed set of shapes those probes distinguish. -/

/-- Modelled from the spec: `agents/writer.py` (which defines the
`ReportData` pydantic model) is not among the provided sources; the spec
gives `Report{short_summary, markdown_report, follow_up_questions:
ordered list of string}`, matching the three keys probed in
`manager.py` and the three fields read in `runner.py`. -/
structure ReportData where
  short_summary : String
  markdown_report : String
  follow_up_questions : List String
deriving DecidableEq

/-- Shapes of a Python value as probed by `manager.py`:
* `vreport` — an actual `ReportData` instance;
* `vwrap inner dump` — an object with a `final_output` attribute (a
  nested `RunResult`-like wrapper), possibly also exposing `model_dump`;
* `vobj attrs dump` — a generic object without `final_output`: `attrs`
  are its probed attributes, `dump` is `model_dump()` when the method
  exists;
* `vdict` — a plain dict; `vint`, `vstr`, `vlist`, `vnone` — primitives. -/
inductive PyVal where
  | vreport (r : ReportData)
  | vwrap (inner : PyVal) (dump : Option (List (String × PyVal)))
  | vobj (attrs : List (String × PyVal)) (dump : Option (List (String × PyVal)))
  | vdict (entries : List (String × PyVal))
  | vint (n : Int)
  | vstr (s : String)
  | vlist (items : List PyVal)
  | vnone

/-- First-match association-list lookup (Python `dict.get`). -/
def pyGet : List (String × PyVal) → String → Option PyVal
  | [], _ => none
  | (k, v) :: rest, key => if k = key then some v else pyGet rest key

/-- Python `hasattr`/`getattr` for the modelled shapes: `ReportData`
exposes its three pydantic fields, a wrapper exposes `final_output`, a
generic object exposes its `attrs`. -/
def lookupAttr : PyVal → String → Option PyVal
  | .vreport r, key =>
    if key = "short_summary" then some (.vstr r.short_summary)
    else if key = "markdown_report" then some (.vstr r.markdown_report)
    else if key = "follow_up_questions" then
      some (.vlist (r.follow_up_questions.map PyVal.vstr))
    else none
  | .vwrap inner _, key => if key = "final_output" then some inner else none
  | .vobj attrs _, key => pyGet attrs key
  | _, _ => none

/-- The `model_dump()` result when the value exposes the method
(`hasattr(obj, "model_dump")`): a `ReportData` dumps its three fields,
wrappers and generic objects carry their dump explicitly. -/
def dumpOf : PyVal → Option (List (String × PyVal))
  | .vreport r =>
    some [("short_summary", .vstr r.short_summary),
          ("markdown_report", .vstr r.markdown_report),
          ("follow_up_questions", .vlist (r.follow_up_questions.map PyVal.vstr))]
  | .vwrap _ d => d
  | .vobj _ d => d
  | _ => none

/-- The `all(k in data for k in ['short_summary', 'markdown_report',
'follow_up_questions'])` key test of `_extract_report`. -/
def hasReportKeys (d : List (String × PyVal)) : Bool :=
  (pyGet d "short_summary").isSome && (pyGet d "markdown_report").isSome
    && (pyGet d "follow_up_questions").isSome

/-- Conversion of a Python list value to a list of strings, as pydantic
validation of `follow_up_questions` requires. -/
def asStrList : List PyVal → Option (List String)
  | [] => some []
  | .vstr s :: rest => (asStrList rest).map (s :: ·)
  | _ => none

/-- Models `ReportData(**data)`: pydantic validation succeeds iff the
three fields have the declared types (extra keys are ignored); a
validation failure is the `except Exception` path, giving `none`. -/
def buildReport (d : List (String × PyVal)) : Option ReportData :=
  match pyGet d "short_summary", pyGet d "markdown_report",
      pyGet d "follow_up_questions" with
  | some (.vstr s), some (.vstr m), some (.vlist qs) =>
    (asStrList qs).map fun l => ⟨s, m, l⟩
  | _, _, _ => none

/-- Embedding of `ResearchManager._extract_report`: the ordered chain of
extraction attempts — `isinstance(output, ReportData)`, recursion into a
`final_output` attribute, a structured dump containing all three report
keys, a plain mapping with those keys, otherwise `None`. -/
def extractReport : PyVal → Option ReportData
  | .vreport r => some r
  | .vwrap inner _ => extractReport inner
  | .vobj _ (some d) => if hasReportKeys d then buildReport d else none
  | .vobj _ none => none
  | .vdict d => if hasReportKeys d then buildReport d else none
  | _ => none

/-- Embedding of the inner `_extract` of
`ResearchManager._update_budget_usage`: probe an attribute named `key`
(an `int` value directly, or an object whose `model_dump` holds an `int`
at `key`), then the object's own dump, then plain-dict lookup. -/
def intFromDump (d : Option (List (String × PyVal))) (key : String) : Option Int :=
  match d with
  | some l =>
    match pyGet l key with
    | some (.vint n) => some n
    | _ => none
  | none => none

/-- Attribute/dump/dict probe for an integer field, following `_extract`
in `_update_budget_usage` branch for branch. -/
def pyExtractInt (obj : PyVal) (key : String) : Option Int :=
  let fromAttr : Option Int :=
    match lookupAttr obj key with
    | some (.vint n) => some n
    | some v => intFromDump (dumpOf v) key
    | none => none
  match fromAttr with
  | some n => some n
  | none =>
    match intFromDump (dumpOf obj) key with
    | some n => some n
    | none =>
      match obj with
      | .vdict d =>
        match pyGet d key with
        | some (.vint n) => some n
        | _ => none
      | _ => none

/-! ## Data model (`config.py`, `runner.py`) -/

/-- Embedding of the `Config` dataclass from `config.py`. -/
structure Config where
  model : String
  search_count : Int
  max_iterations : Int := 10
  max_searches : Int := 15
  auto_decide : Bool := true
deriving DecidableEq

/-- Embedding of the `Request` dataclass from `runner.py` (already
parsed; `parse_request` guarantees `version = "v1"`). -/
structure Request where
  version : String
  run_id : String
  query : String
  config : Config
deriving DecidableEq

/-- Outcome of reading and parsing the first stdin line in `async_main`:
no line at all, a `json.JSONDecodeError`/`KeyError`/`ValueError` raised
by `parse_request` (carrying the exception text), or a parsed request. -/
inductive ParseOutcome where
  | noInput
  | parseError (message : String)
  | ok (req : Request)

/-- One clarifying question (`ClarifyingQuestion` pydantic model,
modelled from the spec since `agents/clarifier.py` exposes only
`label`/`question` string fields, which is all the core reads). -/
structure Question where
  label : String
  question : String
deriving DecidableEq

/-- Wire message, one per `emit_*` helper in `runner.py`.  Optional
fields are omitted from the JSON object when `none`; the constructor
field order matches the emitted key order. -/
inductive Msg where
  | status (message : String)
  | traceMsg (trace_id : String) (trace_url : String)
  | prompt (agent : String) (sequence : Nat) (content : String)
  | raw_response (agent : String) (sequence : Nat) (content : String)
      (token_usage : Option TokenUsage)
  | clarifying_questions (questions : List Question)
  | decision (action : String) (reason : String)
      (remaining_searches : Int) (remaining_iterations : Int)
  | report (short_summary : String) (markdown_report : String)
      (follow_up_questions : List String)
  | metadata (model : String) (duration_ms : Nat) (total_tokens : Option Int)
  | error (message : String) (code : Option String)
  | done (success : Bool)
deriving DecidableEq

/-- Item yielded by the `ResearchManager` async generators, one per
event dataclass in `manager.py` plus plain strings and `ReportData`. -/
inductive Item where
  | strItem (s : String)
  | promptEvent (agent : String) (sequence : Nat) (content : String)
  | responseEvent (agent : String) (sequence : Nat) (content : String)
      (token_usage : Option TokenUsage)
  | clarifyingEvent (questions : List Question)
  | decisionEvent (action : String) (reason : String)
      (remaining_searches : Int) (remaining_iterations : Int)
  | reportItem (r : ReportData)

/-- Mutable state of one `ResearchManager`: the `_sequence` counter and
the two budget counters, all initialised to zero in `__init__`. -/
structure ManagerState where
  sequence : Nat
  searches_used : Int
  iterations_used : Int
deriving DecidableEq

/-- Embedding of `ResearchManager._update_budget_usage`: replace each
counter by the probed integer field when found, leave it unchanged when
not. -/
def updateBudgetUsage (st : ManagerState) (output : PyVal) : ManagerState :=
  let searches := pyExtractInt output "searches_performed"
  let iterations := pyExtractInt output "iterations"
  let st1 :=
    match searches with
    | some n => { st with searches_used := n }
    | none => st
  match iterations with
  | some n => { st1 with iterations_used := n }
  | none => st1

/-! ## Environment: external calls, stdin and scheduling -/

/-- Environment of one run: everything outside the core's control.
Times are in milliseconds from the start of the research poll loop.
`completeTime` is when the orchestration task finishes (with
`orchOutcome`); `interruptArrive` is when the interrupt listener stores
a signal into the `InterruptController` (with the latest command
`interruptCommand`, `none` when the stored command is `None`). -/
structure Env where
  trace_id : String
  clarifyOutcome : Except String (List Question × Option TokenUsage)
  answers : Option (List String)
  completeTime : Nat
  orchOutcome : Except String (PyVal × Option TokenUsage)
  interruptArrive : Option Nat
  interruptCommand : Option String
  duration_ms : Nat

/-- Poll interval of `_run_orchestrator` (`timeout=0.1` seconds), in
milliseconds. -/
def pollPeriod : Nat := 100

/-- Time at which `asyncio.wait({orchestrator_task}, timeout=0.1,
return_when=FIRST_COMPLETED)` returns when entered at time `t`:
immediately if the task already finished, else at the earlier of the
poll timeout and the task's completion. -/
def nextWake (completeTime t : Nat) : Nat :=
  if completeTime ≤ t then t else min (t + pollPeriod) completeTime

/-- Whether `check_interrupt` observes the signal at time `t`. -/
def interruptObserved (arrive : Option Nat) (t : Nat) : Bool :=
  match arrive with
  | some a => decide (a ≤ t)
  | none => false

/-- How the `while True` poll loop of `_run_orchestrator` exits:
`interrupted taskDone` when the interrupt check fires first (`taskDone`
records whether the orchestration task had already finished at that
wake), `completed` when `orchestrator_task in done` breaks the loop. -/
inductive LoopExit where
  | interrupted (taskDone : Bool)
  | completed
deriving DecidableEq

/-- Embedding of the poll loop of `_run_orchestrator`: on every wake the
interrupt flag is checked first, then task completion. -/
def pollLoop (arrive : Option Nat) (completeTime t : Nat) : LoopExit :=
  if interruptObserved arrive (nextWake completeTime t) then
    .interrupted (decide (completeTime ≤ nextWake completeTime t))
  else if completeTime ≤ nextWake completeTime t then .completed
  else pollLoop arrive completeTime (nextWake completeTime t)
termination_by completeTime - t
decreasing_by
  rename_i hno
  by_cases hct : completeTime ≤ t
  · exact absurd (by simp [nextWake, hct]) hno
  · have hw : nextWake completeTime t = min (t + pollPeriod) completeTime := by
      simp [nextWake, hct]
    rw [hw] at hno ⊢
    simp only [pollPeriod] at *
    omega

/-! ## Rendering helpers (serialization, out of the claims' scope)

The spec places the textual content of serialized payloads outside the
core's contract; no claim inspects these strings, so `str()` of opaque
objects and `json.dumps` of structured dumps are rendered by the
following concrete but shallow functions. -/

/-- Models Python `str()` on a final output; structured shapes render to
a representative tag (their exact Python repr embeds memory addresses). -/
def pyStr : PyVal → String
  | .vstr s => s
  | .vint n => toString n
  | .vnone => "None"
  | .vreport _ => "ReportData"
  | .vwrap _ _ => "RunResult"
  | .vobj _ _ => "object"
  | .vdict _ => "dict"
  | .vlist _ => "list"

/-- Models `json.dumps(dump, indent=2)` on a structured dump (shallow). -/
def renderDump (d : List (String × PyVal)) : String :=
  "\x7b" ++ String.intercalate ", "
    (d.map fun kv => "\"" ++ kv.1 ++ "\": " ++ pyStr kv.2) ++ "\x7d"

/-- Content of the orchestrator `ResponseEvent`: `json.dumps` of the
structured dump when `model_dump` exists, else `str(final_output)`. -/
def renderOutput (final_output : PyVal) : String :=
  match dumpOf final_output with
  | some d => renderDump d
  | none => pyStr final_output

/-- Models `json.dumps([q.model_dump() for q in questions], indent=2)`. -/
def renderQuestions (qs : List Question) : String :=
  "[" ++ String.intercalate ", "
    (qs.map fun q =>
      "\x7b\"label\": \"" ++ q.label ++ "\", \"question\": \"" ++ q.question
        ++ "\"\x7d") ++ "]"

/-! ## `ResearchManager` phases (`manager.py`) -/

/-- The string yielded first by `ResearchManager.run`. -/
def traceLine (trace_id : String) : String :=
  "View trace: https://platform.openai.com/traces/trace?trace_id=" ++ trace_id

/-- Embedding of `ResearchManager.clarify`: yields a status string, the
prompt (with the next sequence number), and — when the clarifier call
returns — the response and the clarifying-questions event; an exception
in the call surfaces after the prompt was yielded. -/
def clarifyPhase (query : String) (env : Env) (st : ManagerState) :
    List Item × ManagerState × Option String :=
  let clarifier_prompt := "Query: " ++ query
  let seq := st.sequence + 1
  let st1 := { st with sequence := seq }
  let base := [Item.strItem "Generating clarifying questions...",
    Item.promptEvent "clarifier" seq clarifier_prompt]
  match env.clarifyOutcome with
  | .error e => (base, st1, some e)
  | .ok (qs, tu) =>
    (base ++ [Item.responseEvent "clarifier" seq (renderQuestions qs) tu,
      Item.clarifyingEvent qs], st1, none)

/-- The additional-context block from the clarifying answers: empty for
`None` or an empty list (Python truthiness), otherwise a header plus one
bullet per answer whose `strip()` is non-empty. -/
def buildContext (answers : Option (List String)) : String :=
  match answers with
  | some (a :: rest) =>
    "\n\nUser provided additional context:\n" ++
      ((a :: rest).foldl
        (fun acc ans => if ans.trim.isEmpty then acc else acc ++ "- " ++ ans ++ "\n")
        "")
  | _ => ""

/-- Embedding of `ResearchManager._build_orchestrator_input`. -/
def buildOrchestratorInput (cfg : Config) (query context : String) : String :=
  "Research Query: " ++ query ++ context ++
    "\n\nBudget Constraints:\n- Maximum searches: " ++ toString cfg.max_searches ++
    "\n- Maximum iterations: " ++ toString cfg.max_iterations ++
    "\n- Initial search plan size: " ++ toString cfg.search_count ++
    "\n\nBegin your research process. Use your tools strategically to gather comprehensive \ninformation, then hand off to the writer when ready."

/-- Reason string of the interrupt `DecisionEvent`: the stored command
when truthy, else the generic reason. -/
def interruptReason (command : Option String) : String :=
  match command with
  | some c => if c.isEmpty then "Interrupted by user command" else "Interrupted by command: " ++ c
  | none => "Interrupted by user command"

/-- The two items yielded on the interrupt path of `_run_orchestrator`. -/
def interruptItems (cfg : Config) (env : Env) (st : ManagerState) : List Item :=
  [Item.decisionEvent "interrupt" (interruptReason env.interruptCommand)
    (cfg.max_searches - st.searches_used)
    (cfg.max_iterations - st.iterations_used),
   Item.strItem "Research interrupted"]

/-- Embedding of `ResearchManager._run_orchestrator` after the prompt
was yielded: poll-loop exit decides the branch.  On the interrupt branch
`orchestrator_task.cancel()` is a no-op when the task already finished,
and the subsequent `await` re-raises the task's exception (only
`CancelledError` is swallowed), landing in the `except Exception`
handler that yields the error response and re-raises.  On completion the
budget is updated from the final output before the response is yielded,
then report extraction decides between report and completion decision. -/
def runOrchestratorPhase (cfg : Config) (env : Env) (seq : Nat) (st : ManagerState) :
    List Item × ManagerState × Option String :=
  match pollLoop env.interruptArrive env.completeTime 0 with
  | .interrupted taskDone =>
    if taskDone then
      match env.orchOutcome with
      | .error e =>
        ([Item.responseEvent "orchestrator" seq ("[error: " ++ e ++ "]") none],
         st, some e)
      | .ok _ => (interruptItems cfg env st, st, none)
    else (interruptItems cfg env st, st, none)
  | .completed =>
    match env.orchOutcome with
    | .error e =>
      ([Item.responseEvent "orchestrator" seq ("[error: " ++ e ++ "]") none],
       st, some e)
    | .ok (final_output, tu) =>
      let output_content := renderOutput final_output
      let st1 := updateBudgetUsage st final_output
      let resp := Item.responseEvent "orchestrator" seq output_content tu
      match extractReport final_output with
      | some r => ([resp, Item.strItem "Research complete", Item.reportItem r], st1, none)
      | none =>
        ([resp,
          Item.decisionEvent "complete"
            "Orchestrator finished without explicit handoff to writer"
            (cfg.max_searches - st1.searches_used)
            (cfg.max_iterations - st1.iterations_used),
          Item.strItem "Research complete (orchestrator loop ended)"], st1, none)

/-- Embedding of `ResearchManager.run`: trace line, context build,
start decision, orchestrator prompt (next sequence number), then the
orchestrator phase. -/
def managerRunPhase (cfg : Config) (query : String) (answers : Option (List String))
    (env : Env) (st : ManagerState) : List Item × ManagerState × Option String :=
  let context := buildContext answers
  let orchestrator_input := buildOrchestratorInput cfg query context
  let seq := st.sequence + 1
  let st1 := { st with sequence := seq }
  let pre := [Item.strItem (traceLine env.trace_id),
    Item.strItem "Starting agentic research loop...",
    Item.decisionEvent "start" "Beginning research with orchestrator agent"
      cfg.max_searches cfg.max_iterations,
    Item.promptEvent "orchestrator" seq orchestrator_input]
  match runOrchestratorPhase cfg env seq st1 with
  | (items, st2, err) => (pre ++ items, st2, err)

/-! ## Runner event mapping (`runner.py`) -/

/-- Python `s.split(sep, 1)[1]`: everything after the first separator. -/
def afterFirst (s sep : String) : String :=
  String.intercalate sep (s.splitOn sep).tail

/-- Python `url.split("trace_id=")[1] if "trace_id=" in url else ""`. -/
def traceIdFrom (url : String) : String :=
  match url.splitOn "trace_id=" with
  | _ :: second :: _ => second
  | _ => ""

/-- Event mapping of `run_clarify`: manager items to wire messages
(plain strings become `status`). -/
def clarifyItemToMsg : Item → Option Msg
  | .promptEvent a s c => some (.prompt a s c)
  | .responseEvent a s c tu => some (.raw_response a s c tu)
  | .clarifyingEvent qs => some (.clarifying_questions qs)
  | .strItem s => some (.status s)
  | _ => none

/-- Event mapping of `run_research`: manager items to wire messages; a
string starting with `View trace:` becomes a `trace` message, other
strings become `status`. -/
def researchItemToMsg : Item → Option Msg
  | .promptEvent a s c => some (.prompt a s c)
  | .responseEvent a s c tu => some (.raw_response a s c tu)
  | .decisionEvent a r rs ri => some (.decision a r rs ri)
  | .reportItem r => some (.report r.short_summary r.markdown_report r.follow_up_questions)
  | .strItem s =>
    if strStartsWith s "View trace:" then
      some (.traceMsg (traceIdFrom (afterFirst s ": ")) (afterFirst s ": "))
    else some (.status s)
  | _ => none

/-- Embedding of `async_main` (with the final manager state exposed):
request-gate errors, then clarify, answers, research with the interrupt
listener; `run_research` appends `metadata` after the manager generator
is exhausted; the top-level handler emits `error` + `done(false)` on any
exception, else `done(true)`. -/
def asyncMainFull (p : ParseOutcome) (env : Env) : List Msg × ManagerState :=
  match p with
  | .noInput => ([Msg.error "No input received" (some "NO_INPUT"), Msg.done false], ⟨0, 0, 0⟩)
  | .parseError e =>
    ([Msg.error ("Invalid request: " ++ e) (some "INVALID_REQUEST"), Msg.done false], ⟨0, 0, 0⟩)
  | .ok req =>
    match clarifyPhase req.query env ⟨0, 0, 0⟩ with
    | (citems, st1, some e) =>
      ((citems.filterMap clarifyItemToMsg) ++
        [Msg.error e (some "RUNTIME_ERROR"), Msg.done false], st1)
    | (citems, st1, none) =>
      let cmsgs := citems.filterMap clarifyItemToMsg
      match managerRunPhase req.config req.query env.answers env st1 with
      | (ritems, st2, some e) =>
        (cmsgs ++ (ritems.filterMap researchItemToMsg) ++
          [Msg.error e (some "RUNTIME_ERROR"), Msg.done false], st2)
      | (ritems, st2, none) =>
        (cmsgs ++ (ritems.filterMap researchItemToMsg) ++
          [Msg.metadata req.config.model env.duration_ms none, Msg.done true], st2)

/-- The emitted message stream of `async_main`. -/
def asyncMain (p : ParseOutcome) (env : Env) : List Msg :=
  (asyncMainFull p env).1

/-! ## Specification-side predicates over the message stream -/

/-- Recogniser for `done` messages. -/
def isDoneMsg : Msg → Bool
  | .done _ => true
  | _ => false

/-- Recogniser for `metadata` messages. -/
def isMetadataMsg : Msg → Bool
  | .metadata _ _ _ => true
  | _ => false

/-- Recogniser for `report` messages. -/
def isReportMsg : Msg → Bool
  | .report _ _ _ => true
  | _ => false

/-- Recogniser for a `raw_response` of the orchestrator invocation. -/
def isOrchResponseMsg : Msg → Bool
  | .raw_response a _ _ _ => a == "orchestrator"
  | _ => false

/-- Recogniser for a `decision` message with the given action. -/
def isDecisionWithAction (m : Msg) (a : String) : Bool :=
  match m with
  | .decision act _ _ _ => act == a
  | _ => false

/-- Recogniser for a `decision` message with the given reason. -/
def isDecisionWithReason (m : Msg) (rsn : String) : Bool :=
  match m with
  | .decision _ r _ _ => r == rsn
  | _ => false

/-- Every `decision{action:"interrupt"}` must carry the full configured
budget as its remaining counts. -/
def interruptDecisionBudgetOk (cfg : Config) (m : Msg) : Bool :=
  match m with
  | .decision act _ rs ri =>
    if act == "interrupt" then rs == cfg.max_searches && ri == cfg.max_iterations
    else true
  | _ => true

/-- Sequence-number invariant checker: scanning the stream with the set
of already-prompted sequence numbers, every `prompt` must carry a number
strictly above all earlier ones (hence fresh), and every `raw_response`
must carry an already-prompted number. -/
def seqInvariant : List Msg → List Nat → Bool
  | [], _ => true
  | .prompt _ s _ :: rest, seen =>
    seen.all (fun m => decide (m < s)) && seqInvariant rest (s :: seen)
  | .raw_response _ s _ _ :: rest, seen => seen.contains s && seqInvariant rest seen
  | _ :: rest, seen => seqInvariant rest seen

/-- The exception (if any) that escapes to `async_main`'s top-level
handler for a valid request under environment `env`, read off the
environment: a clarifier failure, or — when the poll loop observes the
interrupt at a wake where the orchestration task had already failed, or
observes completion of a failed task — the orchestration failure. -/
def runErrorOf (env : Env) : Option String :=
  match env.clarifyOutcome with
  | .error e => some e
  | .ok _ =>
    match pollLoop env.interruptArrive env.completeTime 0 with
    | .interrupted true =>
      match env.orchOutcome with
      | .error e => some e
      | .ok _ => none
    | .interrupted false => none
    | .completed =>
      match env.orchOutcome with
      | .error e => some e
      | .ok _ => none

/-! ## Sample requests and environments for witnesses and counterexamples -/

/-- Sample configuration (the `parse_request` defaults). -/
def sampleConfig : Config := ⟨"gpt-4o", 5, 10, 15, true⟩

/-- Sample valid request. -/
def sampleRequest : Request := ⟨"v1", "run-1", "quantum computing", sampleConfig⟩

/-- A dump carrying the three report fields with valid types. -/
def reportDict : List (String × PyVal) :=
  [("short_summary", .vstr "sum"), ("markdown_report", .vstr "body"),
   ("follow_up_questions", .vlist [.vstr "next"])]

/-- Environment whose clarifier invocation raises. -/
def envClarifyError : Env :=
  ⟨"t1", .error "clarifier exploded", none, 0, .ok (.vnone, none), none, none, 12⟩

/-- Environment whose orchestration completes without a report shape. -/
def envNoHandoff : Env :=
  ⟨"t2", .ok ([], none), some ["more context"], 0, .ok (.vstr "loop ended", none),
   none, none, 34⟩

/-- Environment whose orchestration completes with a report-shaped dict. -/
def envCleanReport : Env :=
  ⟨"t3", .ok ([⟨"Scope", "What scope?"⟩], some ⟨7, 8, 15⟩), none, 0,
   .ok (.vdict reportDict, some ⟨100, 200, 300⟩), none, none, 56⟩

/-- Environment interrupted (at 50 ms) long before the task completes
(at 500 ms): the signal is observed at the first poll wake (100 ms) with
the task still in flight. -/
def envInterruptClean : Env :=
  ⟨"t4", .ok ([], none), none, 500, .ok (.vstr "never seen", none), some 50,
   some "stop", 78⟩

/-- Environment interrupted at 90 ms with the task completing at 400 ms:
clean interrupt observed at the 100 ms wake. -/
def envInterruptCleanB : Env :=
  ⟨"t7", .ok ([], none), none, 400, .ok (.vstr "pending", none), some 90, none, 13⟩

/-- Race environment: the interrupt arrives at 250 ms, inside the final
poll interval (wakes at 100, 200, then 270 when the task finishes), and
the task fails at 270 ms — the signal is first observed at a wake where
the task has already failed. -/
def envInterruptRaceA : Env :=
  ⟨"t5", .ok ([], none), none, 270, .error "boom", some 250, some "stop", 90⟩

/-- Race environment: interrupt at 150 ms, failed completion at 180 ms
(wakes at 100, then 180). -/
def envInterruptRaceB : Env :=
  ⟨"t6", .ok ([], none), none, 180, .error "upstream 503", some 150, none, 11⟩

/-- Messages emitted by every run that finishes the clarify phase. -/
def clarifyMsgs (req : Request) (qs : List Question) (tu : Option TokenUsage) : List Msg :=
  [Msg.status "Generating clarifying questions...",
   Msg.prompt "clarifier" 1 ("Query: " ++ req.query),
   Msg.raw_response "clarifier" 1 (renderQuestions qs) tu,
   Msg.clarifying_questions qs]

/-- Messages opening the research phase. -/
def researchPrefixMsgs (req : Request) (env : Env) : List Msg :=
  [Msg.traceMsg (traceIdFrom (afterFirst (traceLine env.trace_id) ": "))
      (afterFirst (traceLine env.trace_id) ": "),
   Msg.status "Starting agentic research loop...",
   Msg.decision "start" "Beginning research with orchestrator agent"
     req.config.max_searches req.config.max_iterations,
   Msg.prompt "orchestrator" 2
     (buildOrchestratorInput req.config req.query (buildContext env.answers))]

/-! ## Helper lemmas -/

theorem listPrefixEq_append (p a r : List Char) (h : listPrefixEq p a = true) :
    listPrefixEq p (a ++ r) = true := by
  induction p generalizing a with
  | nil => simp [listPrefixEq]
  | cons c cs ih =>
    cases a with
    | nil => simp [listPrefixEq] at h
    | cons b bs =>
      simp [listPrefixEq] at h ⊢
      exact ⟨h.1, ih bs h.2⟩

theorem strStartsWith_traceLine (tid : String) :
    strStartsWith (traceLine tid) "View trace:" = true := by
  have h : (traceLine tid).toList =
      "View trace: https://platform.openai.com/traces/trace?trace_id=".toList ++ tid.toList := by
    simp [traceLine, String.toList]
  simp only [strStartsWith, h]
  exact listPrefixEq_append _ _ _ (by decide)

theorem pollLoop_interrupted_of_le (a c : Nat) (hle : a ≤ c) :
    ∀ t, ∃ td, pollLoop (some a) c t = .interrupted td := by
  intro t
  refine pollLoop.induct (some a) c
    (fun x => ∃ td, pollLoop (some a) c x = .interrupted td) ?_ ?_ ?_ t
  · intro x h
    exact ⟨decide (c ≤ nextWake c x), by unfold pollLoop; simp [h]⟩
  · intro x h h2
    exact absurd (by simp [interruptObserved]; omega) h
  · intro x h h2 ih
    obtain ⟨td, htd⟩ := ih
    refine ⟨td, ?_⟩
    unfold pollLoop
    simp [h, h2]
    exact htd

theorem pollLoop_completed_at_zero : pollLoop none 0 0 = .completed := by
  unfold pollLoop; norm_num [nextWake, interruptObserved, pollPeriod]

theorem pollLoop_race_a : pollLoop (some 250) 270 0 = .interrupted true := by
  unfold pollLoop; norm_num [nextWake, interruptObserved, pollPeriod]
  unfold pollLoop; norm_num [nextWake, interruptObserved, pollPeriod]
  unfold pollLoop; norm_num [nextWake, interruptObserved, pollPeriod]

theorem pollLoop_race_b : pollLoop (some 150) 180 0 = .interrupted true := by
  unfold pollLoop; norm_num [nextWake, interruptObserved, pollPeriod]
  unfold pollLoop; norm_num [nextWake, interruptObserved, pollPeriod]

theorem pollLoop_clean_a : pollLoop (some 50) 500 0 = .interrupted false := by
  unfold pollLoop; norm_num [nextWake, interruptObserved, pollPeriod]

theorem pollLoop_clean_b : pollLoop (some 90) 400 0 = .interrupted false := by
  unfold pollLoop; norm_num [nextWake, interruptObserved, pollPeriod]

theorem asyncMainFull_clarify_error (req : Request) (env : Env) (e : String)
    (hc : env.clarifyOutcome = .error e) :
    asyncMainFull (.ok req) env =
      ([Msg.status "Generating clarifying questions...",
        Msg.prompt "clarifier" 1 ("Query: " ++ req.query),
        Msg.error e (some "RUNTIME_ERROR"), Msg.done false], ⟨1, 0, 0⟩) := by
  simp [asyncMainFull, clarifyPhase, hc, clarifyItemToMsg]

theorem asyncMainFull_interrupt_clean (req : Request) (env : Env)
    (qs : List Question) (tu : Option TokenUsage)
    (hc : env.clarifyOutcome = .ok (qs, tu))
    (hp : pollLoop env.interruptArrive env.completeTime 0 = .interrupted false) :
    asyncMainFull (.ok req) env =
      (clarifyMsgs req qs tu ++ researchPrefixMsgs req env ++
        [Msg.decision "interrupt" (interruptReason env.interruptCommand)
           req.config.max_searches req.config.max_iterations,
         Msg.status "Research interrupted",
         Msg.metadata req.config.model env.duration_ms none, Msg.done true], ⟨2, 0, 0⟩) := by
  simp [asyncMainFull, clarifyPhase, hc, clarifyItemToMsg, managerRunPhase,
    runOrchestratorPhase, hp, interruptItems, researchItemToMsg,
    strStartsWith_traceLine, clarifyMsgs, researchPrefixMsgs,
    show strStartsWith "Starting agentic research loop..." "View trace:" = false from by decide,
    show strStartsWith "Research interrupted" "View trace:" = false from by decide]

theorem asyncMainFull_interrupt_done_ok (req : Request) (env : Env)
    (qs : List Question) (tu : Option TokenUsage) (fo : PyVal) (tu2 : Option TokenUsage)
    (hc : env.clarifyOutcome = .ok (qs, tu))
    (hp : pollLoop env.interruptArrive env.completeTime 0 = .interrupted true)
    (ho : env.orchOutcome = .ok (fo, tu2)) :
    asyncMainFull (.ok req) env =
      (clarifyMsgs req qs tu ++ researchPrefixMsgs req env ++
        [Msg.decision "interrupt" (interruptReason env.interruptCommand)
           req.config.max_searches req.config.max_iterations,
         Msg.status "Research interrupted",
         Msg.metadata req.config.model env.duration_ms none, Msg.done true], ⟨2, 0, 0⟩) := by
  simp [asyncMainFull, clarifyPhase, hc, clarifyItemToMsg, managerRunPhase,
    runOrchestratorPhase, hp, ho, interruptItems, researchItemToMsg,
    strStartsWith_traceLine, clarifyMsgs, researchPrefixMsgs,
    show strStartsWith "Starting agentic research loop..." "View trace:" = false from by decide,
    show strStartsWith "Research interrupted" "View trace:" = false from by decide]

theorem asyncMainFull_interrupt_done_error (req : Request) (env : Env)
    (qs : List Question) (tu : Option TokenUsage) (e : String)
    (hc : env.clarifyOutcome = .ok (qs, tu))
    (hp : pollLoop env.interruptArrive env.completeTime 0 = .interrupted true)
    (ho : env.orchOutcome = .error e) :
    asyncMainFull (.ok req) env =
      (clarifyMsgs req qs tu ++ researchPrefixMsgs req env ++
        [Msg.raw_response "orchestrator" 2 ("[error: " ++ e ++ "]") none,
         Msg.error e (some "RUNTIME_ERROR"), Msg.done false], ⟨2, 0, 0⟩) := by
  simp [asyncMainFull, clarifyPhase, hc, clarifyItemToMsg, managerRunPhase,
    runOrchestratorPhase, hp, ho, researchItemToMsg,
    strStartsWith_traceLine, clarifyMsgs, researchPrefixMsgs,
    show strStartsWith "Starting agentic research loop..." "View trace:" = false from by decide]

theorem asyncMainFull_completed_error (req : Request) (env : Env)
    (qs : List Question) (tu : Option TokenUsage) (e : String)
    (hc : env.clarifyOutcome = .ok (qs, tu))
    (hp : pollLoop env.interruptArrive env.completeTime 0 = .completed)
    (ho : env.orchOutcome = .error e) :
    asyncMainFull (.ok req) env =
      (clarifyMsgs req qs tu ++ researchPrefixMsgs req env ++
        [Msg.raw_response "orchestrator" 2 ("[error: " ++ e ++ "]") none,
         Msg.error e (some "RUNTIME_ERROR"), Msg.done false], ⟨2, 0, 0⟩) := by
  simp [asyncMainFull, clarifyPhase, hc, clarifyItemToMsg, managerRunPhase,
    runOrchestratorPhase, hp, ho, researchItemToMsg,
    strStartsWith_traceLine, clarifyMsgs, researchPrefixMsgs,
    show strStartsWith "Starting agentic research loop..." "View trace:" = false from by decide]

theorem asyncMainFull_completed_report (req : Request) (env : Env)
    (qs : List Question) (tu : Option TokenUsage) (fo : PyVal) (tu2 : Option TokenUsage)
    (r : ReportData)
    (hc : env.clarifyOutcome = .ok (qs, tu))
    (hp : pollLoop env.interruptArrive env.completeTime 0 = .completed)
    (ho : env.orchOutcome = .ok (fo, tu2))
    (hr : extractReport fo = some r) :
    asyncMainFull (.ok req) env =
      (clarifyMsgs req qs tu ++ researchPrefixMsgs req env ++
        [Msg.raw_response "orchestrator" 2 (renderOutput fo) tu2,
         Msg.status "Research complete",
         Msg.report r.short_summary r.markdown_report r.follow_up_questions,
         Msg.metadata req.config.model env.duration_ms none, Msg.done true],
       updateBudgetUsage ⟨2, 0, 0⟩ fo) := by
  simp [asyncMainFull, clarifyPhase, hc, clarifyItemToMsg, managerRunPhase,
    runOrchestratorPhase, hp, ho, hr, researchItemToMsg,
    strStartsWith_traceLine, clarifyMsgs, researchPrefixMsgs,
    show strStartsWith "Starting agentic research loop..." "View trace:" = false from by decide,
    show strStartsWith "Research complete" "View trace:" = false from by decide]

theorem asyncMainFull_completed_noreport (req : Request) (env : Env)
    (qs : List Question) (tu : Option TokenUsage) (fo : PyVal) (tu2 : Option TokenUsage)
    (hc : env.clarifyOutcome = .ok (qs, tu))
    (hp : pollLoop env.interruptArrive env.completeTime 0 = .completed)
    (ho : env.orchOutcome = .ok (fo, tu2))
    (hr : extractReport fo = none) :
    asyncMainFull (.ok req) env =
      (clarifyMsgs req qs tu ++ researchPrefixMsgs req env ++
        [Msg.raw_response "orchestrator" 2 (renderOutput fo) tu2,
         Msg.decision "complete" "Orchestrator finished without explicit handoff to writer"
           (req.config.max_searches - (updateBudgetUsage ⟨2, 0, 0⟩ fo).searches_used)
           (req.config.max_iterations - (updateBudgetUsage ⟨2, 0, 0⟩ fo).iterations_used),
         Msg.status "Research complete (orchestrator loop ended)",
         Msg.metadata req.config.model env.duration_ms none, Msg.done true],
       updateBudgetUsage ⟨2, 0, 0⟩ fo) := by
  simp [asyncMainFull, clarifyPhase, hc, clarifyItemToMsg, managerRunPhase,
    runOrchestratorPhase, hp, ho, hr, researchItemToMsg,
    strStartsWith_traceLine, clarifyMsgs, researchPrefixMsgs,
    show strStartsWith "Starting agentic research loop..." "View trace:" = false from by decide,
    show strStartsWith "Research complete (orchestrator loop ended)" "View trace:" = false from by decide]

theorem attemptLoop_succeeds (behavior : Nat → Except String α) :
    ∀ (n attempt left : Nat), n ≤ left →
    (∀ j, j < n → ∃ e, behavior (attempt + j) = .error e ∧ shouldRetry e = true) →
    ∀ r, behavior (attempt + n) = .ok r →
    attemptLoop behavior attempt left = (.ok r, attempt + n) := by
  intro n
  induction n with
  | zero =>
    intro attempt left _ _ r hok
    simp only [Nat.add_zero] at hok ⊢
    cases left <;> simp [attemptLoop, hok]
  | succ n ih =>
    intro attempt left hle hfail r hok
    obtain ⟨e0, he0, hr0⟩ := hfail 0 (by omega)
    simp only [Nat.add_zero] at he0
    cases left with
    | zero => omega
    | succ l =>
      have hstep : attemptLoop behavior attempt (l + 1) = attemptLoop behavior (attempt + 1) l := by
        simp [attemptLoop, he0, hr0]
      rw [hstep]
      have hfail' : ∀ j, j < n → ∃ e, behavior (attempt + 1 + j) = .error e ∧ shouldRetry e = true := by
        intro j hj
        obtain ⟨e', he', hr'⟩ := hfail (j + 1) (by omega)
        exact ⟨e', by rw [show attempt + 1 + j = attempt + (j + 1) from by omega]; exact he', hr'⟩
      have hok' : behavior (attempt + 1 + n) = .ok r := by
        rw [show attempt + 1 + n = attempt + (n + 1) from by omega]; exact hok
      have := ih (attempt + 1) l (by omega) hfail' r hok'
      rw [this]
      congr 1
      omega

theorem attemptLoop_exhausts (behavior : Nat → Except String α) :
    ∀ (left attempt : Nat),
    (∀ j, j ≤ left → ∃ e, behavior (attempt + j) = .error e ∧ shouldRetry e = true) →
    ∃ e, behavior (attempt + left) = .error e ∧
      attemptLoop behavior attempt left = (.error e, attempt + left) := by
  intro left
  induction left with
  | zero =>
    intro attempt hfail
    obtain ⟨e, he, _⟩ := hfail 0 (by omega)
    simp only [Nat.add_zero] at he ⊢
    exact ⟨e, he, by simp [attemptLoop, he]⟩
  | succ l ih =>
    intro attempt hfail
    obtain ⟨e0, he0, hr0⟩ := hfail 0 (by omega)
    simp only [Nat.add_zero] at he0
    obtain ⟨e, he, hloop⟩ := ih (attempt + 1) (fun j hj => by
      obtain ⟨e', he', hr'⟩ := hfail (j + 1) (by omega)
      exact ⟨e', by rw [show attempt + 1 + j = attempt + (j + 1) from by omega]; exact he', hr'⟩)
    refine ⟨e, by rw [show attempt + (l + 1) = attempt + 1 + l from by omega]; exact he, ?_⟩
    have hstep : attemptLoop behavior attempt (l + 1) = attemptLoop behavior (attempt + 1) l := by
      simp [attemptLoop, he0, hr0]
    rw [hstep, hloop]
    congr 1
    omega

theorem tokenFold_eq (rs : List RawResponse) : ∀ p c : Int,
    rs.foldl usageStep (p, c) = (p + sumPromptTokens rs, c + sumCompletionTokens rs) := by
  induction rs with
  | nil => intro p c; simp [sumPromptTokens, sumCompletionTokens]
  | cons hd tl ih =>
    intro p c
    cases hd with
    | none => simp [usageStep, sumPromptTokens, sumCompletionTokens, ih p c]
    | some u =>
      simp only [List.foldl_cons, usageStep, sumPromptTokens, sumCompletionTokens, ih]
      rw [Prod.mk.injEq]
      constructor <;> ring

theorem sums_zero_of_all_none (rs : List RawResponse) (h : ∀ r ∈ rs, r = none) :
    sumPromptTokens rs = 0 ∧ sumCompletionTokens rs = 0 := by
  induction rs with
  | nil => simp [sumPromptTokens, sumCompletionTokens]
  | cons hd tl ih =>
    have hhd : hd = none := h hd (by simp)
    subst hhd
    have := ih (fun r hr => h r (by simp [hr]))
    simpa [sumPromptTokens, sumCompletionTokens] using this

/-! ## Claim theorems -/

/-- C1 (amended): for every valid request and every environment, exactly
one `done` message is emitted and the stream ends with it; when no
exception escapes to the top-level handler (`runErrorOf env = none`) the
run additionally emits exactly one `metadata` message, as the
penultimate message directly before `done{success:true}`; when an
exception escapes, no `metadata` is emitted at all and the stream ends
with `error{RUNTIME_ERROR}` followed by `done{success:false}`. -/
theorem c1_stream_shape (req : Request) (env : Env) :
    (asyncMain (.ok req) env).countP isDoneMsg = 1 ∧
    (match runErrorOf env with
     | none =>
       (asyncMain (.ok req) env).countP isMetadataMsg = 1 ∧
       ∃ front, asyncMain (.ok req) env =
         front ++ [Msg.metadata req.config.model env.duration_ms none, Msg.done true]
     | some e =>
       (asyncMain (.ok req) env).countP isMetadataMsg = 0 ∧
       ∃ front, asyncMain (.ok req) env =
         front ++ [Msg.error e (some "RUNTIME_ERROR"), Msg.done false]) := by
  cases hc : env.clarifyOutcome with
  | error e =>
    have hA := asyncMainFull_clarify_error req env e hc
    simp only [asyncMain, hA, runErrorOf, hc]
    refine ⟨by simp [isDoneMsg, isMetadataMsg], by simp [isDoneMsg, isMetadataMsg],
      [Msg.status "Generating clarifying questions...",
       Msg.prompt "clarifier" 1 ("Query: " ++ req.query)], rfl⟩
  | ok pr =>
    obtain ⟨qs, tu⟩ := pr
    cases hp : pollLoop env.interruptArrive env.completeTime 0 with
    | interrupted td =>
      cases td with
      | false =>
        have hA := asyncMainFull_interrupt_clean req env qs tu hc hp
        simp only [asyncMain, hA, runErrorOf, hc, hp]
        refine ⟨by simp [isDoneMsg, clarifyMsgs, researchPrefixMsgs],
          by simp [isMetadataMsg, clarifyMsgs, researchPrefixMsgs],
          clarifyMsgs req qs tu ++ researchPrefixMsgs req env ++
            [Msg.decision "interrupt" (interruptReason env.interruptCommand)
               req.config.max_searches req.config.max_iterations,
             Msg.status "Research interrupted"], by simp⟩
      | true =>
        cases ho : env.orchOutcome with
        | error e =>
          have hA := asyncMainFull_interrupt_done_error req env qs tu e hc hp ho
          simp only [asyncMain, hA, runErrorOf, hc, hp, ho]
          refine ⟨by simp [isDoneMsg, clarifyMsgs, researchPrefixMsgs],
            by simp [isMetadataMsg, clarifyMsgs, researchPrefixMsgs],
            clarifyMsgs req qs tu ++ researchPrefixMsgs req env ++
              [Msg.raw_response "orchestrator" 2 ("[error: " ++ e ++ "]") none], by simp⟩
        | ok pr2 =>
          obtain ⟨fo, tu2⟩ := pr2
          have hA := asyncMainFull_interrupt_done_ok req env qs tu fo tu2 hc hp ho
          simp only [asyncMain, hA, runErrorOf, hc, hp, ho]
          refine ⟨by simp [isDoneMsg, clarifyMsgs, researchPrefixMsgs],
            by simp [isMetadataMsg, clarifyMsgs, researchPrefixMsgs],
            clarifyMsgs req qs tu ++ researchPrefixMsgs req env ++
              [Msg.decision "interrupt" (interruptReason env.interruptCommand)
                 req.config.max_searches req.config.max_iterations,
               Msg.status "Research interrupted"], by simp⟩
    | completed =>
      cases ho : env.orchOutcome with
      | error e =>
        have hA := asyncMainFull_completed_error req env qs tu e hc hp ho
        simp only [asyncMain, hA, runErrorOf, hc, hp, ho]
        refine ⟨by simp [isDoneMsg, clarifyMsgs, researchPrefixMsgs],
          by simp [isMetadataMsg, clarifyMsgs, researchPrefixMsgs],
          clarifyMsgs req qs tu ++ researchPrefixMsgs req env ++
            [Msg.raw_response "orchestrator" 2 ("[error: " ++ e ++ "]") none], by simp⟩
      | ok pr2 =>
        obtain ⟨fo, tu2⟩ := pr2
        cases hr : extractReport fo with
        | none =>
          have hA := asyncMainFull_completed_noreport req env qs tu fo tu2 hc hp ho hr
          simp only [asyncMain, hA, runErrorOf, hc, hp, ho]
          refine ⟨by simp [isDoneMsg, clarifyMsgs, researchPrefixMsgs],
            by simp [isMetadataMsg, clarifyMsgs, researchPrefixMsgs],
            clarifyMsgs req qs tu ++ researchPrefixMsgs req env ++
              [Msg.raw_response "orchestrator" 2 (renderOutput fo) tu2,
               Msg.decision "complete" "Orchestrator finished without explicit handoff to writer"
                 (req.config.max_searches - (updateBudgetUsage ⟨2, 0, 0⟩ fo).searches_used)
                 (req.config.max_iterations - (updateBudgetUsage ⟨2, 0, 0⟩ fo).iterations_used),
               Msg.status "Research complete (orchestrator loop ended)"], by simp⟩
        | some r =>
          have hA := asyncMainFull_completed_report req env qs tu fo tu2 r hc hp ho hr
          simp only [asyncMain, hA, runErrorOf, hc, hp, ho]
          refine ⟨by simp [isDoneMsg, clarifyMsgs, researchPrefixMsgs],
            by simp [isMetadataMsg, clarifyMsgs, researchPrefixMsgs],
            clarifyMsgs req qs tu ++ researchPrefixMsgs req env ++
              [Msg.raw_response "orchestrator" 2 (renderOutput fo) tu2,
               Msg.status "Research complete",
               Msg.report r.short_summary r.markdown_report r.follow_up_questions], by simp⟩

/-- C1 counterexample: a valid request whose clarifier invocation raises
produces a stream with zero `metadata` messages — the claim's "exactly
one metadata message" fails on failed runs — while the stream still ends
with `done{success:false}`. -/
theorem c1_counterexample :
    (asyncMain (.ok sampleRequest) envClarifyError).countP isMetadataMsg = 0 ∧
    (asyncMain (.ok sampleRequest) envClarifyError).getLast? = some (Msg.done false) := by
  constructor <;> decide

/-- C2: in every emitted stream, sequence numbers of `prompt` messages
are strictly increasing in emission order (hence no sequence number is
used by two prompts), and every `raw_response` carries a sequence number
previously emitted by a `prompt`. -/
theorem c2_sequence_invariant (p : ParseOutcome) (env : Env) :
    seqInvariant (asyncMain p env) [] = true := by
  cases p with
  | noInput => simp [asyncMain, asyncMainFull, seqInvariant]
  | parseError e => simp [asyncMain, asyncMainFull, seqInvariant]
  | ok req =>
    cases hc : env.clarifyOutcome with
    | error e =>
      simp [asyncMain, asyncMainFull_clarify_error req env e hc, seqInvariant]
    | ok pr =>
      obtain ⟨qs, tu⟩ := pr
      cases hp : pollLoop env.interruptArrive env.completeTime 0 with
      | interrupted td =>
        cases td with
        | false =>
          simp [asyncMain, asyncMainFull_interrupt_clean req env qs tu hc hp,
            clarifyMsgs, researchPrefixMsgs, seqInvariant]
        | true =>
          cases ho : env.orchOutcome with
          | error e =>
            simp [asyncMain, asyncMainFull_interrupt_done_error req env qs tu e hc hp ho,
              clarifyMsgs, researchPrefixMsgs, seqInvariant]
          | ok pr2 =>
            obtain ⟨fo, tu2⟩ := pr2
            simp [asyncMain, asyncMainFull_interrupt_done_ok req env qs tu fo tu2 hc hp ho,
              clarifyMsgs, researchPrefixMsgs, seqInvariant]
      | completed =>
        cases ho : env.orchOutcome with
        | error e =>
          simp [asyncMain, asyncMainFull_completed_error req env qs tu e hc hp ho,
            clarifyMsgs, researchPrefixMsgs, seqInvariant]
        | ok pr2 =>
          obtain ⟨fo, tu2⟩ := pr2
          cases hr : extractReport fo with
          | none =>
            simp [asyncMain, asyncMainFull_completed_noreport req env qs tu fo tu2 hc hp ho hr,
              clarifyMsgs, researchPrefixMsgs, seqInvariant]
          | some r =>
            simp [asyncMain, asyncMainFull_completed_report req env qs tu fo tu2 r hc hp ho hr,
              clarifyMsgs, researchPrefixMsgs, seqInvariant]

/-- C3: for any `max_retries`, if the wrapped call fails `k` consecutive
times with retryable errors then succeeds, the invoker performs exactly
`k` retries when `k ≤ max_retries`; when `max_retries < k` it performs
exactly `max_retries` retries (so `min(k, max_retries)` in both cases,
at most `max_retries + 1` attempts) and raises the last error; a
non-retryable first failure raises immediately with zero retries. -/
theorem c3_retry_bounds (behavior : Nat → Except String α) (mr k : Nat)
    (h1 : ∀ i, i < k → ∃ e, behavior i = .error e ∧ shouldRetry e = true) :
    (∀ r, k ≤ mr → behavior k = .ok r →
      agentRunnerRun behavior (some mr) = (.ok r, k)) ∧
    (mr < k → ∃ e, behavior mr = .error e ∧
      agentRunnerRun behavior (some mr) = (.error e, mr)) ∧
    (∀ e, behavior 0 = .error e → shouldRetry e = false →
      agentRunnerRun behavior (some mr) = (.error e, 0)) := by
  refine ⟨?_, ?_, ?_⟩
  · intro r hk hok
    have := attemptLoop_succeeds behavior k 0 mr hk
      (fun j hj => by simpa using h1 j (by omega)) r (by simpa using hok)
    simpa [agentRunnerRun] using this
  · intro hmk
    obtain ⟨e, he, hl⟩ := attemptLoop_exhausts behavior mr 0
      (fun j hj => by simpa using h1 j (by omega))
    exact ⟨e, by simpa using he, by simpa [agentRunnerRun] using hl⟩
  · intro e he hsr
    cases mr with
    | zero => simp [agentRunnerRun, attemptLoop, he]
    | succ l => simp [agentRunnerRun, attemptLoop, he, hsr]

/-- C3 witness: with `max_retries = 3` and a call failing twice with a
retryable `HTTP 503` before succeeding, the invoker returns the success
after exactly 2 retries. -/
theorem c3_retry_bounds_witness :
    agentRunnerRun (fun i => if i < 2 then Except.error "HTTP 503" else Except.ok 7) (some 3)
      = (Except.ok 7, 2) :=
  (c3_retry_bounds (fun i => if i < 2 then Except.error "HTTP 503" else Except.ok 7) 3 2
    (fun i hi => ⟨"HTTP 503", by interval_cases i <;> simp, by decide⟩)).1 7 (by omega) (by simp)

/-- C4: report extraction follows the exact chain of `_extract_report`:
an actual `ReportData` is returned as-is; an output with a
`final_output` attribute is recursed into (even when it also has a
structured dump); an object's structured dump containing all three
report keys yields the validated report built from that dump; a plain
mapping with those keys likewise; every other shape yields no report. -/
theorem c4_extract_report_order :
    (∀ r, extractReport (.vreport r) = some r) ∧
    (∀ inner d, extractReport (.vwrap inner d) = extractReport inner) ∧
    (∀ attrs d, hasReportKeys d = true → extractReport (.vobj attrs (some d)) = buildReport d) ∧
    (∀ attrs d, hasReportKeys d = false → extractReport (.vobj attrs (some d)) = none) ∧
    (∀ attrs, extractReport (.vobj attrs none) = none) ∧
    (∀ d, hasReportKeys d = true → extractReport (.vdict d) = buildReport d) ∧
    (∀ d, hasReportKeys d = false → extractReport (.vdict d) = none) ∧
    (∀ n, extractReport (.vint n) = none) ∧
    (∀ s, extractReport (.vstr s) = none) ∧
    (∀ l, extractReport (.vlist l) = none) ∧
    (extractReport .vnone = none) :=
  ⟨fun _ => rfl, fun _ _ => rfl,
   fun _ d h => by simp [extractReport, h],
   fun _ d h => by simp [extractReport, h],
   fun _ => rfl,
   fun d h => by simp [extractReport, h],
   fun d h => by simp [extractReport, h],
   fun _ => rfl, fun _ => rfl, fun _ => rfl, rfl⟩

/-- C4 witness: an object whose dump carries the three report fields
yields the report built from the dump, and a wrapper with a nested
`ReportData` final output yields that report (the recursion step taking
precedence over the wrapper's own dump). -/
theorem c4_extract_report_order_witness :
    extractReport (.vobj [("final", .vnone)] (some reportDict)) = some ⟨"sum", "body", ["next"]⟩ ∧
    extractReport (.vwrap (.vreport ⟨"a", "b", []⟩) (some reportDict)) = some ⟨"a", "b", []⟩ := by
  constructor
  · have h := c4_extract_report_order.2.2.1 [("final", .vnone)] reportDict (by decide)
    rw [h]; decide
  · have h := c4_extract_report_order.2.1 (.vreport ⟨"a", "b", []⟩) (some reportDict)
    rw [h]
    exact c4_extract_report_order.1 ⟨"a", "b", []⟩

/-- C5 (amended): after the orchestration task completes, a successful
extraction yields `status "Research complete"` followed by exactly one
`report` carrying the extracted fields verbatim; a failed extraction
instead yields a `decision` with action `"complete"` and the literal
reason `"Orchestrator finished without explicit handoff to writer"`
(carrying remaining budget counts) followed by a terminal status and no
`report` message. -/
theorem c5_resolution_messages (req : Request) (env : Env)
    (qs : List Question) (tu : Option TokenUsage) (fo : PyVal) (tu2 : Option TokenUsage)
    (hc : env.clarifyOutcome = .ok (qs, tu))
    (hp : pollLoop env.interruptArrive env.completeTime 0 = .completed)
    (ho : env.orchOutcome = .ok (fo, tu2)) :
    (∀ r, extractReport fo = some r →
      (∃ front, asyncMain (.ok req) env = front ++
        [Msg.status "Research complete",
         Msg.report r.short_summary r.markdown_report r.follow_up_questions,
         Msg.metadata req.config.model env.duration_ms none, Msg.done true]) ∧
      (asyncMain (.ok req) env).countP isReportMsg = 1) ∧
    (extractReport fo = none →
      (∃ front rs ri, asyncMain (.ok req) env = front ++
        [Msg.decision "complete" "Orchestrator finished without explicit handoff to writer" rs ri,
         Msg.status "Research complete (orchestrator loop ended)",
         Msg.metadata req.config.model env.duration_ms none, Msg.done true]) ∧
      (asyncMain (.ok req) env).countP isReportMsg = 0) := by
  constructor
  · intro r hr
    have hA := asyncMainFull_completed_report req env qs tu fo tu2 r hc hp ho hr
    simp only [asyncMain, hA]
    refine ⟨⟨clarifyMsgs req qs tu ++ researchPrefixMsgs req env ++
      [Msg.raw_response "orchestrator" 2 (renderOutput fo) tu2], by simp⟩,
      by simp [isReportMsg, clarifyMsgs, researchPrefixMsgs]⟩
  · intro hr
    have hA := asyncMainFull_completed_noreport req env qs tu fo tu2 hc hp ho hr
    simp only [asyncMain, hA]
    refine ⟨⟨clarifyMsgs req qs tu ++ researchPrefixMsgs req env ++
      [Msg.raw_response "orchestrator" 2 (renderOutput fo) tu2],
      req.config.max_searches - (updateBudgetUsage ⟨2, 0, 0⟩ fo).searches_used,
      req.config.max_iterations - (updateBudgetUsage ⟨2, 0, 0⟩ fo).iterations_used, by simp⟩,
      by simp [isReportMsg, clarifyMsgs, researchPrefixMsgs]⟩

/-- C5 counterexample: a run whose orchestration completes without a
report shape emits a `decision{action:"complete"}`, but no decision in
the whole stream carries the claim's literal reason
`"no explicit handoff"` — the actual reason string is `"Orchestrator
finished without explicit handoff to writer"`. -/
theorem c5_counterexample :
    (asyncMain (.ok sampleRequest) envNoHandoff).any
      (fun m => isDecisionWithAction m "complete") = true ∧
    (asyncMain (.ok sampleRequest) envNoHandoff).all
      (fun m => !(isDecisionWithReason m "no explicit handoff")) = true := by
  have hA := asyncMainFull_completed_noreport sampleRequest envNoHandoff [] none
    (.vstr "loop ended") none rfl pollLoop_completed_at_zero rfl rfl
  constructor
  · simp only [asyncMain, hA]
    decide
  · simp only [asyncMain, hA]
    decide

/-- C5 witness: the clean-run environment produces `status "Research
complete"` followed by the report with the dump's three fields verbatim,
and exactly one report message. -/
theorem c5_resolution_messages_witness :
    (∃ front, asyncMain (.ok sampleRequest) envCleanReport = front ++
      [Msg.status "Research complete",
       Msg.report "sum" "body" ["next"],
       Msg.metadata "gpt-4o" 56 none, Msg.done true]) ∧
    (asyncMain (.ok sampleRequest) envCleanReport).countP isReportMsg = 1 :=
  (c5_resolution_messages sampleRequest envCleanReport [⟨"Scope", "What scope?"⟩]
    (some ⟨7, 8, 15⟩) (.vdict reportDict) (some ⟨100, 200, 300⟩)
    rfl pollLoop_completed_at_zero rfl).1 ⟨"sum", "body", ["next"]⟩ (by decide)

/-- C6 (amended): when the poll loop observes the interrupt — at a wake
where the orchestration task is still in flight, or at one where it had
already completed but successfully — the run emits the interrupt
decision with the reason derived from the signalled command, a terminal
status, no report, and still ends with `metadata` and `done{success:true}`;
the carve-out for a task that had already failed when the interrupt is
first observed is exhibited by the counterexample. -/
theorem c6_interrupt_run_outcome (req : Request) (env : Env)
    (qs : List Question) (tu : Option TokenUsage) (td : Bool)
    (hc : env.clarifyOutcome = .ok (qs, tu))
    (hp : pollLoop env.interruptArrive env.completeTime 0 = .interrupted td)
    (hok : td = true → ∃ v t2, env.orchOutcome = .ok (v, t2)) :
    (∃ front, asyncMain (.ok req) env = front ++
      [Msg.decision "interrupt" (interruptReason env.interruptCommand)
         req.config.max_searches req.config.max_iterations,
       Msg.status "Research interrupted",
       Msg.metadata req.config.model env.duration_ms none, Msg.done true]) ∧
    (asyncMain (.ok req) env).countP isReportMsg = 0 := by
  cases td with
  | false =>
    have hA := asyncMainFull_interrupt_clean req env qs tu hc hp
    simp only [asyncMain, hA]
    exact ⟨⟨clarifyMsgs req qs tu ++ researchPrefixMsgs req env, by simp⟩,
      by simp [isReportMsg, clarifyMsgs, researchPrefixMsgs]⟩
  | true =>
    obtain ⟨v, t2, ho⟩ := hok rfl
    have hA := asyncMainFull_interrupt_done_ok req env qs tu v t2 hc hp ho
    simp only [asyncMain, hA]
    exact ⟨⟨clarifyMsgs req qs tu ++ researchPrefixMsgs req env, by simp⟩,
      by simp [isReportMsg, clarifyMsgs, researchPrefixMsgs]⟩

/-- C6 counterexample: the interrupt signal arrives at 250 ms, while the
orchestration task is still in flight (it fails at 270 ms), yet because
it is first observed at the wake that also observes the failed
completion, the run emits no interrupt decision at all and ends with
`done{success:false}` — contradicting the claim's guaranteed interrupt
decision and `done{success:true}`. -/
theorem c6_counterexample :
    (asyncMain (.ok sampleRequest) envInterruptRaceA).all
      (fun m => !(isDecisionWithAction m "interrupt")) = true ∧
    (asyncMain (.ok sampleRequest) envInterruptRaceA).getLast? = some (Msg.done false) := by
  have hA := asyncMainFull_interrupt_done_error sampleRequest envInterruptRaceA [] none
    "boom" rfl pollLoop_race_a rfl
  constructor
  · simp only [asyncMain, hA]
    decide
  · simp only [asyncMain, hA]
    decide

/-- C6 witness: an interrupt with command `stop` observed while the task
is in flight produces the interrupt decision with reason
`Interrupted by command: stop`, no report, and `done{success:true}`. -/
theorem c6_interrupt_run_outcome_witness :
    (∃ front, asyncMain (.ok sampleRequest) envInterruptClean = front ++
      [Msg.decision "interrupt" (interruptReason envInterruptClean.interruptCommand)
         sampleRequest.config.max_searches sampleRequest.config.max_iterations,
       Msg.status "Research interrupted",
       Msg.metadata sampleRequest.config.model envInterruptClean.duration_ms none,
       Msg.done true]) ∧
    (asyncMain (.ok sampleRequest) envInterruptClean).countP isReportMsg = 0 :=
  c6_interrupt_run_outcome sampleRequest envInterruptClean [] none false rfl
    pollLoop_clean_a (fun h => nomatch h)

/-- C7: updating the budget replaces `searches_used` by the probed
integer field `searches_performed` and `iterations_used` by `iterations`
whenever the probe (attribute, structured dump, or plain mapping) finds
them, independently of the previous counter values, and leaves a counter
unchanged when its field is not found; the sequence counter is never
touched. -/
theorem c7_budget_replacement (st : ManagerState) (out : PyVal) :
    (updateBudgetUsage st out).searches_used =
      (pyExtractInt out "searches_performed").getD st.searches_used ∧
    (updateBudgetUsage st out).iterations_used =
      (pyExtractInt out "iterations").getD st.iterations_used ∧
    (updateBudgetUsage st out).sequence = st.sequence := by
  cases h1 : pyExtractInt out "searches_performed" <;>
    cases h2 : pyExtractInt out "iterations" <;>
      simp [updateBudgetUsage, h1, h2]

/-- C8: when token-usage extraction produces a record, its fields are
exactly the sums of `prompt_tokens` and `completion_tokens` over every
raw response, with `total_tokens` the sum of the two; and when no
response reported any usage object the extraction is absent (`none`),
not a record of zeros. -/
theorem c8_token_usage_sums (rs : List RawResponse) :
    (∀ u, extractTokenUsage rs = some u →
      u.prompt_tokens = sumPromptTokens rs ∧
      u.completion_tokens = sumCompletionTokens rs ∧
      u.total_tokens = sumPromptTokens rs + sumCompletionTokens rs) ∧
    ((∀ r ∈ rs, r = none) → extractTokenUsage rs = none) := by
  constructor
  · intro u hu
    by_cases he : rs.isEmpty
    · simp [extractTokenUsage, he] at hu
    · have hfold := tokenFold_eq rs 0 0
      simp only [extractTokenUsage, he, Bool.false_eq_true, if_false, hfold, Int.zero_add] at hu
      split at hu
      · cases hu
        exact ⟨rfl, rfl, rfl⟩
      · cases hu
  · intro h
    by_cases he : rs.isEmpty
    · simp [extractTokenUsage, he]
    · obtain ⟨h1, h2⟩ := sums_zero_of_all_none rs h
      have hfold := tokenFold_eq rs 0 0
      simp only [extractTokenUsage, he, Bool.false_eq_true, if_false, hfold, Int.zero_add, h1, h2]
      norm_num

/-- C8 witness: a result with one usage-bearing response (3 prompt, 4
completion tokens) and one without yields the sums 3, 4 and total 7,
while a result whose responses all lack usage yields no record. -/
theorem c8_token_usage_sums_witness :
    ((⟨3, 4, 7⟩ : TokenUsage).prompt_tokens =
        sumPromptTokens [some ⟨some 3, some 4⟩, none] ∧
      (⟨3, 4, 7⟩ : TokenUsage).completion_tokens =
        sumCompletionTokens [some ⟨some 3, some 4⟩, none] ∧
      (⟨3, 4, 7⟩ : TokenUsage).total_tokens =
        sumPromptTokens [some ⟨some 3, some 4⟩, none] +
          sumCompletionTokens [some ⟨some 3, some 4⟩, none]) ∧
    extractTokenUsage [none, none] = none :=
  ⟨(c8_token_usage_sums [some ⟨some 3, some 4⟩, none]).1 ⟨3, 4, 7⟩ (by decide),
   (c8_token_usage_sums [none, none]).2 (by simp)⟩

/-- C9 (amended): whenever the interrupt controller is signalled at or
before the wake that observes the orchestration task's completion, the
poll loop exits through the interrupt branch (the flag is checked before
completion on every wake); and provided the task had not already failed
when the interrupt is first observed, no orchestrator `raw_response`, no
`report` and no budget update are produced for that invocation — even
when the task had already completed successfully; the failed-task
carve-out is exhibited by the counterexample. -/
theorem c9_interrupt_priority (req : Request) (env : Env)
    (qs : List Question) (tu : Option TokenUsage) (a : Nat)
    (hc : env.clarifyOutcome = .ok (qs, tu))
    (ha : env.interruptArrive = some a)
    (hle : a ≤ env.completeTime)
    (hnf : pollLoop env.interruptArrive env.completeTime 0 = .interrupted true →
      ∃ v t2, env.orchOutcome = .ok (v, t2)) :
    (∃ td, pollLoop env.interruptArrive env.completeTime 0 = .interrupted td) ∧
    (asyncMain (.ok req) env).all (fun m => !(isOrchResponseMsg m)) = true ∧
    (asyncMain (.ok req) env).countP isReportMsg = 0 ∧
    (asyncMainFull (.ok req) env).2.searches_used = 0 ∧
    (asyncMainFull (.ok req) env).2.iterations_used = 0 := by
  have hex : ∃ td, pollLoop env.interruptArrive env.completeTime 0 = .interrupted td := by
    rw [ha]
    exact pollLoop_interrupted_of_le a env.completeTime hle 0
  obtain ⟨td, hpd⟩ := hex
  refine ⟨⟨td, hpd⟩, ?_⟩
  cases td with
  | false =>
    have hA := asyncMainFull_interrupt_clean req env qs tu hc hpd
    simp only [asyncMain, hA]
    refine ⟨?_, ?_, by trivial, by trivial⟩
    · simp [isOrchResponseMsg, clarifyMsgs, researchPrefixMsgs,
        show ("clarifier" == "orchestrator") = false from by decide]
    · simp [isReportMsg, clarifyMsgs, researchPrefixMsgs]
  | true =>
    obtain ⟨v, t2, ho⟩ := hnf hpd
    have hA := asyncMainFull_interrupt_done_ok req env qs tu v t2 hc hpd ho
    simp only [asyncMain, hA]
    refine ⟨?_, ?_, by trivial, by trivial⟩
    · simp [isOrchResponseMsg, clarifyMsgs, researchPrefixMsgs,
        show ("clarifier" == "orchestrator") = false from by decide]
    · simp [isReportMsg, clarifyMsgs, researchPrefixMsgs]

/-- C9 counterexample: the interrupt is signalled at 150 ms, before the
180 ms wake that observes the (failed) completion, yet the run emits an
orchestrator `raw_response` for that invocation — contradicting the
claim that no raw_response is produced whenever the signal precedes the
completion-observing wake. -/
theorem c9_counterexample :
    envInterruptRaceB.interruptArrive = some 150 ∧
    150 ≤ envInterruptRaceB.completeTime ∧
    (asyncMain (.ok sampleRequest) envInterruptRaceB).any isOrchResponseMsg = true := by
  have hA := asyncMainFull_interrupt_done_error sampleRequest envInterruptRaceB [] none
    "upstream 503" rfl pollLoop_race_b rfl
  refine ⟨rfl, by decide, ?_⟩
  simp only [asyncMain, hA]
  decide

/-- C9 witness: with the interrupt signalled at 90 ms and the task
completing at 400 ms, the interrupt branch is taken and the stream has
no orchestrator raw_response, no report, and untouched budget
counters. -/
theorem c9_interrupt_priority_witness :
    (∃ td, pollLoop envInterruptCleanB.interruptArrive envInterruptCleanB.completeTime 0 =
        .interrupted td) ∧
    (asyncMain (.ok sampleRequest) envInterruptCleanB).all
      (fun m => !(isOrchResponseMsg m)) = true ∧
    (asyncMain (.ok sampleRequest) envInterruptCleanB).countP isReportMsg = 0 ∧
    (asyncMainFull (.ok sampleRequest) envInterruptCleanB).2.searches_used = 0 ∧
    (asyncMainFull (.ok sampleRequest) envInterruptCleanB).2.iterations_used = 0 := by
  refine c9_interrupt_priority sampleRequest envInterruptCleanB [] none 90 rfl rfl
    (by decide) ?_
  intro h
  rw [show pollLoop envInterruptCleanB.interruptArrive envInterruptCleanB.completeTime 0 =
    .interrupted false from pollLoop_clean_b] at h
  simp at h

/-- C10: every `decision` message with action `"interrupt"` in any run
reports `remaining_searches` equal to the configured `max_searches` and
`remaining_iterations` equal to the configured `max_iterations`: the
usage counters start at zero and are mutated only on the normal
completion path, which is never taken before an interrupt decision. -/
theorem c10_interrupt_decision_full_budget (req : Request) (env : Env) :
    (asyncMain (.ok req) env).all (interruptDecisionBudgetOk req.config) = true := by
  cases hc : env.clarifyOutcome with
  | error e =>
    simp [asyncMain, asyncMainFull_clarify_error req env e hc, interruptDecisionBudgetOk]
  | ok pr =>
    obtain ⟨qs, tu⟩ := pr
    cases hp : pollLoop env.interruptArrive env.completeTime 0 with
    | interrupted td =>
      cases td with
      | false =>
        simp [asyncMain, asyncMainFull_interrupt_clean req env qs tu hc hp,
          clarifyMsgs, researchPrefixMsgs, interruptDecisionBudgetOk,
          show ("start" == "interrupt") = false from by decide]
      | true =>
        cases ho : env.orchOutcome with
        | error e =>
          simp [asyncMain, asyncMainFull_interrupt_done_error req env qs tu e hc hp ho,
            clarifyMsgs, researchPrefixMsgs, interruptDecisionBudgetOk,
            show ("start" == "interrupt") = false from by decide]
        | ok pr2 =>
          obtain ⟨fo, tu2⟩ := pr2
          simp [asyncMain, asyncMainFull_interrupt_done_ok req env qs tu fo tu2 hc hp ho,
            clarifyMsgs, researchPrefixMsgs, interruptDecisionBudgetOk,
            show ("start" == "interrupt") = false from by decide]
    | completed =>
      cases ho : env.orchOutcome with
      | error e =>
        simp [asyncMain, asyncMainFull_completed_error req env qs tu e hc hp ho,
          clarifyMsgs, researchPrefixMsgs, interruptDecisionBudgetOk,
          show ("start" == "interrupt") = false from by decide]
      | ok pr2 =>
        obtain ⟨fo, tu2⟩ := pr2
        cases hr : extractReport fo with
        | none =>
          simp [asyncMain, asyncMainFull_completed_noreport req env qs tu fo tu2 hc hp ho hr,
            clarifyMsgs, researchPrefixMsgs, interruptDecisionBudgetOk,
            show ("start" == "interrupt") = false from by decide,
            show ("complete" == "interrupt") = false from by decide]
        | some r =>
          simp [asyncMain, asyncMainFull_completed_report req env qs tu fo tu2 r hc hp ho hr,
            clarifyMsgs, researchPrefixMsgs, interruptDecisionBudgetOk,
            show ("start" == "interrupt") = false from by decide]

end Lode
